import Mathlib

/-! # TrendVest — verification of the core data model and operations

Shallow embedding of the TrendVest repository's core: the PostgreSQL
schema (`database/001_schema.sql`, `database/002_add_x_source.sql`),
the momentum scoring pipeline, the bounded lookup cache, and the
frontend watchlist / i18n / gauge components.

Tables are embedded as Lean lists of row structures; SQL timestamps
become `Nat`, SQL FLOAT becomes `ℚ`, SQL INT becomes `Int`.
-/

namespace Trendvest

/-! ## Persistence layer: topic_mentions -/

/-- A row of the `topic_mentions` table (`001_schema.sql`):
topic reference, source name, integer count, collection timestamp and
an explicit period window. -/
structure MentionRow where
  topic_id : Nat
  source : String
  mention_count : Int
  collected_at : Nat
  period_start : Nat
  period_end : Nat
  deriving DecidableEq, Repr

/-- The CHECK constraint on `topic_mentions.source` after the
`002_add_x_source.sql` migration:
`CHECK (source IN ('reddit', 'news', 'google_trends', 'x'))`. -/
def topic_mentions_source_check (s : String) : Bool :=
  s == "reddit" || s == "news" || s == "google_trends" || s == "x"

/-- Inserting a row into `topic_mentions`: the schema enforces the
foreign key to `topics(id)` and the source CHECK constraint, and
nothing else — the table declares no UNIQUE constraint beyond the
surrogate `id`, so any row passing those checks is appended. -/
def insertMention (topicIds : List Nat) (tbl : List MentionRow) (r : MentionRow) :
    Option (List MentionRow) :=
  if topicIds.contains r.topic_id && topic_mentions_source_check r.source then
    some (tbl ++ [r])
  else
    none

/-! ## Persistence layer: momentum_scores -/

/-- A row of the `momentum_scores` table (`001_schema.sql`). -/
structure MomentumRow where
  topic_id : Nat
  score : ℚ
  mention_count_today : Int
  mention_avg_7d : ℚ
  direction : String
  updated_at : Nat
  deriving DecidableEq, Repr

/-- The `UNIQUE(topic_id)` constraint of `momentum_scores`: no two rows
of the table share a topic. -/
def momentumUnique (tbl : List MomentumRow) : Prop :=
  List.Pairwise (fun a b => a.topic_id ≠ b.topic_id) tbl

instance (tbl : List MomentumRow) : Decidable (momentumUnique tbl) := by
  unfold momentumUnique
  exact List.instDecidablePairwise tbl

/-- Modelled from the spec: the Momentum Calculator's write
(`backend/app/services/momentum.py` is not among the sources) — it
"upserts the single Momentum Score row for the topic", replacing the
prior row's fields when the topic already has a row and inserting a
fresh row otherwise. -/
def upsertMomentum (tbl : List MomentumRow) (r : MomentumRow) : List MomentumRow :=
  if tbl.any (fun row => row.topic_id == r.topic_id) then
    tbl.map (fun row => if row.topic_id == r.topic_id then r else row)
  else
    tbl ++ [r]

/-- The zero-initialized momentum row inserted by `init_momentum_scores`:
`SELECT id, 0, 0, 0, 'stable' FROM topics` (with `updated_at` defaulted). -/
def zeroRow (tid now : Nat) : MomentumRow :=
  ⟨tid, 0, 0, 0, "stable", now⟩

/-- The SQL function `init_momentum_scores()` of `001_schema.sql`:
`INSERT INTO momentum_scores (topic_id, score, mention_count_today,
mention_avg_7d, direction) SELECT id, 0, 0, 0, 'stable' FROM topics
ON CONFLICT (topic_id) DO NOTHING;` — one candidate row per topic,
each skipped when a row for that topic already exists. -/
def init_momentum_scores (topicIds : List Nat) (now : Nat)
    (tbl : List MomentumRow) : List MomentumRow :=
  topicIds.foldl
    (fun acc tid =>
      if acc.any (fun row => row.topic_id == tid) then acc
      else acc ++ [zeroRow tid now])
    tbl

/-! ## Momentum Calculator -/

/-- Modelled from the spec: the division floor ε of the momentum formula
(`backend/app/services/momentum.py` is not among the sources) — "a small
positive floor (e.g., 1) preventing division blow-up". -/
def epsilon : ℚ := 1

/-- Modelled from the spec: the momentum formula
`score = (today_count / max(avg_7d, ε)) × 100`. -/
def momentum_score (today_count avg_7d : ℚ) : ℚ :=
  today_count / max avg_7d epsilon * 100

/-- Modelled from the spec: the rising threshold (illustrative default 120). -/
def R_hi : ℚ := 120

/-- Modelled from the spec: the falling threshold (illustrative default 80). -/
def R_lo : ℚ := 80

/-- Modelled from the spec: the three-way direction classification —
"`rising` if `score ≥ R_hi` (e.g., 120), `falling` if `score ≤ R_lo`
(e.g., 80), else `stable`". -/
def classify_direction (score : ℚ) : String :=
  if R_hi ≤ score then "rising"
  else if score ≤ R_lo then "falling"
  else "stable"

/-- Modelled from the spec: the per-day mention sum across sources —
days are identified by `period_start`. -/
def daySum (rows : List MentionRow) (d : Nat) : Int :=
  ((rows.filter (fun r => r.period_start == d)).map (fun r => r.mention_count)).sum

/-- Modelled from the spec: the trailing 7-day average of the per-day
mention sums, "computed only over the days that have data (no synthetic
back-fill)"; an empty window yields 0. -/
def avg7d (rows : List MentionRow) (today : Nat) : ℚ :=
  let days := ((List.range 7).map (fun i => today - 1 - i)).filter
    (fun d => rows.any (fun r => r.period_start == d))
  if days.isEmpty then 0
  else ((days.map (fun d => (daySum rows d : ℚ))).sum) / days.length

/-- Modelled from the spec: `recompute(topic)` over the topic's stored
mention rows — a topic with zero mention rows ever yields score 0 and
direction `stable`; otherwise the score is the momentum formula applied
to today's count and the trailing average, and the direction its
classification. -/
def recompute (rows : List MentionRow) (today : Nat) : ℚ × String :=
  if rows.isEmpty then (0, "stable")
  else
    let s := momentum_score (daySum rows today : ℚ) (avg7d rows today)
    (s, classify_direction s)

/-! ## Bounded Lookup Cache -/

/-- A cache entry: key, fetch timestamp, opaque payload. -/
structure CacheEntry (V : Type) where
  key : String
  fetched_at : Nat
  value : V
  deriving DecidableEq, Repr

/-- Lookup of a key among a cache's entries. -/
def cacheFind {V : Type} (es : List (CacheEntry V)) (k : String) :
    Option (CacheEntry V) :=
  es.find? (fun e => e.key == k)

/-- Modelled from the spec: storing a fetched value — the entry list is
kept in insertion order (oldest first); a write replaces any previous
entry for the key, appends the new entry, and then evicts from the
front (oldest-inserted-first) while the entry count exceeds the fixed
capacity, "checked on every write". -/
def insertEvict {V : Type} (cap : Nat) (es : List (CacheEntry V))
    (k : String) (now : Nat) (v : V) : List (CacheEntry V) :=
  let grown := es.filter (fun e => e.key != k) ++ [⟨k, now, v⟩]
  if cap < grown.length then grown.drop (grown.length - cap) else grown

/-- Modelled from the spec: `get_or_fetch(key, fetcher)`
(the price/AI cache code is not among the sources) — on a hit with a
non-stale entry (age < TTL) the cached value is returned and the state
is untouched; on a miss or a stale hit the fetched value is stored and
returned. `fetched` stands for the fetcher's result. -/
def get_or_fetch {V : Type} (cap ttl : Nat) (es : List (CacheEntry V))
    (now : Nat) (k : String) (fetched : V) : V × List (CacheEntry V) :=
  match cacheFind es k with
  | some e =>
      if now - e.fetched_at < ttl then (e.value, es)
      else (fetched, insertEvict cap es k now fetched)
  | none => (fetched, insertEvict cap es k now fetched)

/-- A sequence of `get_or_fetch` calls threaded through the cache state:
each call supplies its time, key and would-be fetched value. -/
def runCalls {V : Type} (cap ttl : Nat) (es : List (CacheEntry V))
    (calls : List (Nat × String × V)) : List (CacheEntry V) :=
  calls.foldl (fun s c => (get_or_fetch cap ttl s c.1 c.2.1 c.2.2).2) es

/-! ## Display gauges (frontend) -/

/-- The `HeatGauge` arc sweep (`HeatGauge.tsx`):
`sweepAngle = (Math.min(100, Math.max(0, score)) / 100) * 270`. -/
def sweepAngle (score : ℚ) : ℚ :=
  min 100 (max 0 score) / 100 * 270

/-- The `TopicCard` momentum bar width (`TopicCard.tsx`):
`width: Math.min(100, topic.momentum_score)` (in percent). -/
def barWidth (score : ℚ) : ℚ :=
  min 100 score

/-! ## Watchlist (frontend) -/

/-- `addTicker` of `useWatchlist.ts`: append the ticker unless it is
already present, in which case the previous list is returned unchanged. -/
def addTicker (prev : List String) (ticker : String) : List String :=
  if prev.contains ticker then prev else prev ++ [ticker]

/-! ## i18n (frontend) -/

/-- The translation table of `frontend/src/i18n/translations.ts`:
each entry is (key, Hebrew string, English string). -/
def translations : List (String × String × String) := [
  ("nav.trends", "טרנדים", "Trends"),
  ("nav.news", "חדשות", "News"),
  ("nav.screener", "סקרינר", "Screener"),
  ("nav.trade", "תרגול", "Practice"),
  ("nav.watchlist", "מעקב", "Watchlist"),
  ("dashboard.title", "מגמות חמות", "Hot Trends"),
  ("dashboard.topMovers", "מובילי השינוי", "Top Movers"),
  ("dashboard.allSectors", "כל הסקטורים", "All Sectors"),
  ("dashboard.noTopics", "אין נושאים להצגה", "No topics to show"),
  ("stock.price", "מחיר", "Price"),
  ("stock.change", "שינוי", "Change"),
  ("stock.readMore", "קרא עוד", "Read More"),
  ("stock.sector", "סקטור", "Sector"),
  ("stock.industry", "ענף", "Industry"),
  ("stock.employees", "עובדים", "Employees"),
  ("stock.marketCap", "שווי שוק", "Market Cap"),
  ("stock.website", "אתר", "Website"),
  ("stock.addWatchlist", "הוסף למעקב", "Add to Watchlist"),
  ("stock.removeWatchlist", "הסר ממעקב", "Remove from Watchlist"),
  ("stock.exchange", "בורסה", "Exchange"),
  ("profile.overview", "סקירה", "Overview"),
  ("profile.management", "הנהלה", "Management"),
  ("profile.financials", "פיננסים", "Financials"),
  ("profile.analyst", "אנליסטים", "Analyst"),
  ("profile.age", "גיל", "Age"),
  ("profile.noOfficers", "אין מידע על הנהלה", "No management data available"),
  ("profile.financialHealth", "בריאות פיננסית", "Financial Health"),
  ("profile.profitMargins", "שולי רווח", "Profit Margins"),
  ("profile.operatingMargins", "שולי תפעול", "Operating Margins"),
  ("profile.roe", "תשואה על ההון", "Return on Equity"),
  ("profile.freeCashflow", "תזרים חופשי", "Free Cashflow"),
  ("profile.totalDebt", "חוב כולל", "Total Debt"),
  ("profile.totalCash", "מזומנים", "Total Cash"),
  ("profile.beta", "בטא", "Beta"),
  ("profile.growth", "צמיחה", "Growth"),
  ("profile.revenueGrowth", "צמיחת הכנסות", "Revenue Growth"),
  ("profile.earningsGrowth", "צמיחת רווחים", "Earnings Growth"),
  ("profile.valuation", "הערכת שווי", "Valuation"),
  ("profile.peRatio", "P/E", "P/E Ratio"),
  ("profile.dividendYield", "תשואת דיבידנד", "Dividend Yield"),
  ("profile.52wRange", "טווח 52 שבועות", "52-Week Range"),
  ("profile.recommendation", "המלצה", "Recommendation"),
  ("profile.targetPrice", "מחיר יעד", "Target Price"),
  ("profile.analystCount", "מספר אנליסטים", "Analysts"),
  ("profile.noAnalyst", "אין נתוני אנליסטים", "No analyst data available"),
  ("profile.companyNews", "חדשות החברה", "Company News"),
  ("profile.noNews", "אין חדשות להצגה", "No news available"),
  ("profile.peers", "עמיתים", "Peers"),
  ("profile.noPeers", "אין עמיתים בסקטור", "No sector peers found"),
  ("profile.peerTicker", "מניה", "Ticker"),
  ("profile.peerMetrics", "מדדים נוספים", "Additional Metrics"),
  ("profile.deepResearch", "מחקר מעמיק", "Deep Research"),
  ("profile.sources", "מקורות", "Sources"),
  ("insight.whyTrending", "למה זה טרנדי?", "Why is this trending?"),
  ("insight.stockConnection", "למה הקשר?", "Why connected?"),
  ("insight.relatedTopics", "נושאים קשורים", "Related Topics"),
  ("insight.hiddenConnections", "קשרים נסתרים", "Hidden Connections"),
  ("insight.loading", "טוען תובנות...", "Loading insights..."),
  ("insight.disclaimer", "מידע חינוכי בלבד — אינו מהווה ייעוץ השקעות", "Educational information only — not investment advice"),
  ("news.title", "חדשות", "News"),
  ("news.latest", "חדשות אחרונות", "Latest News"),
  ("news.noArticles", "אין חדשות להצגה", "No articles to show"),
  ("screener.title", "סקרינר מניות", "Stock Screener"),
  ("screener.search", "חפש מניה...", "Search stock..."),
  ("screener.sortBy", "מיין לפי", "Sort by"),
  ("screener.maxPrice", "מחיר מקסימלי", "Max Price"),
  ("screener.minPrice", "מחיר מינימלי", "Min Price"),
  ("screener.topic", "נושא", "Topic"),
  ("screener.allTopics", "כל הנושאים", "All Topics"),
  ("trade.title", "תרגול מסחר", "Practice Trading"),
  ("trade.disclaimer", "זהו מצב תרגול עם כסף וירטואלי בלבד. רווחים מדומים אינם מבטיחים תוצאות במסחר אמיתי. אין בכך ייעוץ השקעות — למטרות לימוד בלבד.", "This is practice mode with virtual money only. Simulated gains do not guarantee real trading results. Not investment advice — for educational purposes only."),
  ("trade.cash", "מזומן", "Cash"),
  ("trade.totalValue", "שווי כולל", "Total Value"),
  ("trade.pnl", "רווח/הפסד", "P&L"),
  ("trade.buy", "קנה", "Buy"),
  ("trade.sell", "מכור", "Sell"),
  ("trade.quantity", "כמות", "Quantity"),
  ("trade.execute", "בצע עסקה", "Execute Trade"),
  ("trade.history", "היסטוריית עסקאות", "Trade History"),
  ("trade.holdings", "אחזקות", "Holdings"),
  ("trade.noHoldings", "אין אחזקות עדיין", "No holdings yet"),
  ("trade.startTrading", "התחל לסחור", "Start Trading"),
  ("watchlist.title", "רשימת מעקב", "Watchlist"),
  ("watchlist.empty", "הרשימה ריקה", "Watchlist is empty"),
  ("watchlist.addTip", "לחץ על ⭐ ליד מניה כדי להוסיף למעקב", "Click ⭐ next to a stock to add to watchlist"),
  ("watchlist.stocksTab", "מניות", "Stocks"),
  ("watchlist.newsTab", "חדשות", "News"),
  ("watchlist.noNews", "אין חדשות למניות שלך", "No news for your stocks"),
  ("watchlist.justNow", "עכשיו", "Just now"),
  ("chat.title", "עוזר AI", "AI Assistant"),
  ("chat.placeholder", "שאל שאלה...", "Ask a question..."),
  ("chat.remaining", "שאלות נותרו", "questions remaining"),
  ("chat.send", "שלח", "Send"),
  ("explain.tapToLearn", "לחץ ללמוד עוד", "Click to learn more"),
  ("explain.loading", "טוען הסבר...", "Loading explanation..."),
  ("explain.error", "שגיאה בטעינת ההסבר", "Error loading explanation"),
  ("explain.explainSection", "הסבר AI", "AI Explain"),
  ("explain.aiDisclaimer", "הסבר AI — למטרות לימוד בלבד, אינו מהווה ייעוץ השקעות", "AI explanation — for educational purposes only, not investment advice"),
  ("profile.relatedStocks", "מניות קשורות", "Related Stocks"),
  ("profile.noRelated", "אין מניות קשורות", "No related stocks"),
  ("general.loading", "טוען...", "Loading..."),
  ("general.error", "שגיאה", "Error"),
  ("general.close", "סגור", "Close"),
  ("general.cancel", "ביטול", "Cancel"),
  ("general.confirm", "אישור", "Confirm")]

/-- The two locales of `frontend/src/i18n/context.tsx`. -/
inductive Locale where
  | he
  | en
  deriving DecidableEq, Repr

/-- Selecting a locale's string from a translation entry
(`entry[locale]` in `context.tsx`). -/
def pickLocale (locale : Locale) (e : String × String × String) : String :=
  match locale with
  | Locale.he => e.2.1
  | Locale.en => e.2.2

/-- Lookup of a key in the translation table
(`translations[key]` in `context.tsx`). -/
def lookupTranslation (key : String) : Option (String × String × String) :=
  translations.find? (fun e => e.1 == key)

/-- The `t` function of `context.tsx`:
`const entry = translations[key]; return entry ? entry[locale] : key;`. -/
def t (locale : Locale) (key : String) : String :=
  match lookupTranslation key with
  | some e => pickLocale locale e
  | none => key

/-! ## Concrete example inputs -/

/-- A concrete mention record used to exercise the missing uniqueness key. -/
def dupRow : MentionRow :=
  ⟨1, "news", 5, 100, 0, 24⟩

/-- A concrete mention record with the migrated `x` source. -/
def xRow : MentionRow :=
  ⟨1, "x", 7, 50, 0, 24⟩

/-- Mention history of the "quantum" example: 45 mentions today (day 10)
and 15 on each of the trailing seven days. -/
def quantumRows : List MentionRow :=
  [⟨1, "reddit", 45, 10, 10, 11⟩,
   ⟨1, "reddit", 15, 9, 9, 10⟩,
   ⟨1, "reddit", 15, 8, 8, 9⟩,
   ⟨1, "reddit", 15, 7, 7, 8⟩,
   ⟨1, "reddit", 15, 6, 6, 7⟩,
   ⟨1, "reddit", 15, 5, 5, 6⟩,
   ⟨1, "reddit", 15, 4, 4, 5⟩,
   ⟨1, "reddit", 15, 3, 3, 4⟩]

/-- Mention history of the "nuclear" example: 10 mentions today (day 10)
and 10 on the one prior day that has data. -/
def nuclearRows : List MentionRow :=
  [⟨2, "news", 10, 10, 10, 11⟩,
   ⟨2, "news", 10, 9, 9, 10⟩]

/-- A concrete momentum row already in the table. -/
def mRow1 : MomentumRow :=
  ⟨1, 50, 5, 5, "stable", 0⟩

/-- A concrete recomputed momentum row for the same topic. -/
def mRowNew : MomentumRow :=
  ⟨1, 300, 45, 15, "rising", 1⟩

/-! ## Theorems -/

/-- C1: the claim asserts at most one mention row per
(topic, source, period_start, period_end) key, enforced so that repeated
collection is upsert-or-skip. The `topic_mentions` table declares no
uniqueness on that key (only the surrogate `id` is unique), so inserting
the very same record twice passes every schema check and leaves two rows
with the identical key: row count 2, not 1. -/
theorem C1_duplicate_mention_key_accepted :
    insertMention [1] [] dupRow = some [dupRow] ∧
    insertMention [1] [dupRow] dupRow = some [dupRow, dupRow] ∧
    (([dupRow, dupRow].filter (fun r =>
        r.topic_id == dupRow.topic_id && r.source == dupRow.source &&
        r.period_start == dupRow.period_start &&
        r.period_end == dupRow.period_end)).length = 2) := by
  decide

/-- C2: the momentum score is `(today_count / max(avg_7d, ε)) × 100` with
ε = 1 a positive floor: today 45 against a 7-day average of 15 scores 300,
today 10 against average 10 scores 100, a topic with zero mention rows ever
scores 0, and the divisor is positive for every average, so no division by
zero can occur. -/
theorem C2_momentum_formula :
    (recompute quantumRows 10).1 = 300 ∧
    (recompute nuclearRows 10).1 = 100 ∧
    recompute [] 5 = (0, "stable") ∧
    (0 : ℚ) < epsilon ∧
    (∀ a : ℚ, 0 < max a epsilon) ∧
    (∀ tc av : ℚ, momentum_score tc av = tc / max av epsilon * 100) := by
  refine ⟨?_, ?_, rfl, by norm_num [epsilon], ?_, fun tc av => rfl⟩
  · norm_num [recompute, momentum_score, avg7d, daySum, epsilon, quantumRows,
      List.range_succ]
  · norm_num [recompute, momentum_score, avg7d, daySum, epsilon, nuclearRows,
      List.range_succ]
  · intro a
    exact lt_of_lt_of_le (by norm_num [epsilon]) (le_max_right a epsilon)

/-- C3: direction is a three-way threshold with both extreme boundaries
inclusive: rising exactly when the score is at least R_hi = 120, falling
exactly when it is at most R_lo = 80, stable strictly in between; in
particular 120.0 is rising, 119.999 stable, 80.0 falling, 80.001 stable. -/
theorem C3_direction_boundaries :
    classify_direction 120 = "rising" ∧
    classify_direction (119999 / 1000 : ℚ) = "stable" ∧
    classify_direction 80 = "falling" ∧
    classify_direction (80001 / 1000 : ℚ) = "stable" ∧
    (∀ s : ℚ, classify_direction s = "rising" ↔ R_hi ≤ s) ∧
    (∀ s : ℚ, classify_direction s = "falling" ↔ s ≤ R_lo) ∧
    (∀ s : ℚ, classify_direction s = "stable" ↔ (R_lo < s ∧ s < R_hi)) := by
  refine ⟨by norm_num [classify_direction, R_hi, R_lo],
    by norm_num [classify_direction, R_hi, R_lo],
    by norm_num [classify_direction, R_hi, R_lo],
    by norm_num [classify_direction, R_hi, R_lo], ?_, ?_, ?_⟩
  · intro s
    unfold classify_direction
    split_ifs with h1 h2
    · exact iff_of_true rfl h1
    · exact iff_of_false (by decide) h1
    · exact iff_of_false (by decide) h1
  · intro s
    unfold classify_direction
    split_ifs with h1 h2
    · exact iff_of_false (by decide) (fun hl => absurd (le_trans h1 hl) (by decide))
    · exact iff_of_true rfl h2
    · exact iff_of_false (by decide) h2
  · intro s
    unfold classify_direction
    split_ifs with h1 h2
    · exact iff_of_false (by decide) (fun hc => absurd h1 (not_le_of_lt hc.2))
    · exact iff_of_false (by decide) (fun hc => absurd h2 (not_le_of_lt hc.1))
    · exact iff_of_true rfl ⟨lt_of_not_le h2, lt_of_not_le h1⟩

theorem topicId_replace (r row : MomentumRow) :
    (if row.topic_id == r.topic_id then r else row).topic_id = row.topic_id := by
  split_ifs with h
  · exact (beq_iff_eq.mp h).symm
  · rfl

theorem replace_countP (r : MomentumRow) :
    ∀ tbl : List MomentumRow,
      List.Pairwise (fun a b => a.topic_id ≠ b.topic_id) tbl →
      tbl.any (fun row => row.topic_id == r.topic_id) = true →
      (tbl.map (fun row => if row.topic_id == r.topic_id then r else row)).countP
        (fun row => row.topic_id == r.topic_id) = 1
  | [], _, ha => by simp at ha
  | a :: tl, hp, ha => by
    rcases List.pairwise_cons.mp hp with ⟨hhead, htl⟩
    by_cases hm : a.topic_id = r.topic_id
    · have hmap : (if a.topic_id == r.topic_id then r else a) = r := by
        simp [hm]
      have htlzero :
          (tl.map (fun row => if row.topic_id == r.topic_id then r else row)).countP
            (fun row => row.topic_id == r.topic_id) = 0 := by
        rw [List.countP_eq_zero]
        intro x hx
        rcases List.mem_map.mp hx with ⟨b, hb, hfb⟩
        have hbne : ¬ b.topic_id = r.topic_id := fun he => hhead b hb (hm.trans he.symm)
        rw [← hfb]
        simp [hbne]
      rw [List.map_cons, hmap, List.countP_cons, htlzero]
      simp
    · have ha' : tl.any (fun row => row.topic_id == r.topic_id) = true := by
        simp only [List.any_cons, Bool.or_eq_true] at ha
        rcases ha with ha | ha
        · exact absurd (beq_iff_eq.mp ha) hm
        · exact ha
      have hrec := replace_countP r tl htl ha'
      have hmap : (if a.topic_id == r.topic_id then r else a) = a := by
        simp [hm]
      rw [List.map_cons, hmap, List.countP_cons, hrec]
      simp [hm]

/-- C4: for every momentum table satisfying the schema's unique-topic
constraint, upserting a recomputed row keeps the constraint, leaves
exactly one row for the touched topic, and when the topic already had a
row it replaces that row in place: the table's length is unchanged, no
history row is appended. -/
theorem C4_single_momentum_row (tbl : List MomentumRow) (r : MomentumRow)
    (h : momentumUnique tbl) :
    momentumUnique (upsertMomentum tbl r) ∧
    (upsertMomentum tbl r).countP (fun row => row.topic_id == r.topic_id) = 1 ∧
    (tbl.any (fun row => row.topic_id == r.topic_id) = true →
      (upsertMomentum tbl r).length = tbl.length) := by
  unfold upsertMomentum
  split_ifs with hc
  · refine ⟨?_, replace_countP r tbl h hc, fun _ => List.length_map tbl _⟩
    exact List.Pairwise.map _
      (fun a b hab => by rw [topicId_replace, topicId_replace]; exact hab) h
  · have hnone : ∀ row ∈ tbl, row.topic_id ≠ r.topic_id := by
      intro row hrow
      have := List.any_eq_false.mp (Bool.eq_false_iff.mpr hc) row hrow
      simpa using this
    refine ⟨?_, ?_, fun hx => absurd hx hc⟩
    · unfold momentumUnique
      rw [List.pairwise_append]
      exact ⟨h, List.pairwise_singleton _ _, fun a ha b hb =>
        List.mem_singleton.mp hb ▸ hnone a ha⟩
    · rw [List.countP_append]
      have h0 : tbl.countP (fun row => row.topic_id == r.topic_id) = 0 := by
        rw [List.countP_eq_zero]
        intro a ha
        simpa using hnone a ha
      simp [h0]

/-- C4 witness: upserting a fresh score for topic 1 into a table that
already holds a row for topic 1 keeps uniqueness, one row for the topic,
and the same table length. -/
theorem C4_single_momentum_row_witness :
    momentumUnique (upsertMomentum [mRow1] mRowNew) ∧
    (upsertMomentum [mRow1] mRowNew).countP
      (fun row => row.topic_id == mRowNew.topic_id) = 1 ∧
    (upsertMomentum [mRow1] mRowNew).length = [mRow1].length := by
  have h := C4_single_momentum_row [mRow1] mRowNew (by decide)
  exact ⟨h.1, h.2.1, h.2.2 (by decide)⟩

theorem init_cons (tid : Nat) (ids : List Nat) (now : Nat)
    (tbl : List MomentumRow) :
    init_momentum_scores (tid :: ids) now tbl =
      init_momentum_scores ids now
        (if tbl.any (fun row => row.topic_id == tid) then tbl
         else tbl ++ [zeroRow tid now]) := rfl

theorem init_any_mono (ids : List Nat) (now : Nat) (p : MomentumRow → Bool) :
    ∀ tbl : List MomentumRow, tbl.any p = true →
      (init_momentum_scores ids now tbl).any p = true := by
  induction ids with
  | nil => exact fun tbl h => h
  | cons a ids ih =>
    intro tbl h
    rw [init_cons]
    apply ih
    split_ifs
    · exact h
    · simp [List.any_append, h]

theorem init_covers (ids : List Nat) (now : Nat) :
    ∀ tbl : List MomentumRow, ∀ tid ∈ ids,
      (init_momentum_scores ids now tbl).any
        (fun row => row.topic_id == tid) = true := by
  induction ids with
  | nil => intro tbl tid h; simp at h
  | cons a ids ih =>
    intro tbl tid htid
    rcases List.mem_cons.mp htid with he | hm
    · subst he
      rw [init_cons]
      apply init_any_mono
      split_ifs with hc
      · exact hc
      · simp [List.any_append, zeroRow]
    · rw [init_cons]
      exact ih _ tid hm

theorem init_appends (ids : List Nat) (now : Nat) :
    ∀ tbl : List MomentumRow, ∃ suff,
      init_momentum_scores ids now tbl = tbl ++ suff ∧
      ∀ row ∈ suff, ∃ tid, tid ∈ ids ∧ row = zeroRow tid now := by
  induction ids with
  | nil => exact fun tbl => ⟨[], by simp [init_momentum_scores], by simp⟩
  | cons a ids ih =>
    intro tbl
    rw [init_cons]
    split_ifs with hc
    · obtain ⟨suff, heq, hrows⟩ := ih tbl
      exact ⟨suff, heq, fun row hr =>
        let ⟨tid, htid, he⟩ := hrows row hr
        ⟨tid, List.mem_cons_of_mem a htid, he⟩⟩
    · obtain ⟨suff, heq, hrows⟩ := ih (tbl ++ [zeroRow a now])
      refine ⟨zeroRow a now :: suff, by rw [heq]; simp, ?_⟩
      intro row hr
      rcases List.mem_cons.mp hr with he | hm
      · exact ⟨a, List.mem_cons_self a ids, he⟩
      · obtain ⟨tid, htid, he⟩ := hrows row hm
        exact ⟨tid, List.mem_cons_of_mem a htid, he⟩

theorem init_noop (ids : List Nat) (now : Nat) (tbl : List MomentumRow)
    (h : ∀ tid ∈ ids, tbl.any (fun row => row.topic_id == tid) = true) :
    init_momentum_scores ids now tbl = tbl := by
  induction ids with
  | nil => rfl
  | cons a ids ih =>
    rw [init_cons, if_pos (h a (List.mem_cons_self a ids))]
    exact ih fun tid ht => h tid (List.mem_cons_of_mem a ht)

/-- C5: `init_momentum_scores()` gives every seeded topic a momentum row
that is exactly the zero row (score 0, counts 0, direction stable), never
touches rows that were already in the table (the original table is a
prefix of the result), and running it a second time — at any later
timestamp — is a no-op: conflicts on the topic key do nothing. -/
theorem C5_init_idempotent (ids : List Nat) (now now2 : Nat)
    (tbl : List MomentumRow) :
    (∀ tid ∈ ids, (init_momentum_scores ids now tbl).any
      (fun row => row.topic_id == tid) = true) ∧
    (∃ suff, init_momentum_scores ids now tbl = tbl ++ suff ∧
      ∀ row ∈ suff, ∃ tid, tid ∈ ids ∧ row = zeroRow tid now) ∧
    init_momentum_scores ids now2 (init_momentum_scores ids now tbl) =
      init_momentum_scores ids now tbl :=
  ⟨init_covers ids now tbl, init_appends ids now tbl,
   init_noop ids now2 _ (init_covers ids now tbl)⟩

/-- C5 witness: seeding topics 1 and 2 over a table that already holds
topic 1 covers topic 2, and re-running the seeding at a later time
changes nothing. -/
theorem C5_init_idempotent_witness :
    (init_momentum_scores [1, 2] 9 [zeroRow 1 3]).any
      (fun row => row.topic_id == 2) = true ∧
    init_momentum_scores [1, 2] 11 (init_momentum_scores [1, 2] 9 [zeroRow 1 3]) =
      init_momentum_scores [1, 2] 9 [zeroRow 1 3] :=
  ⟨(C5_init_idempotent [1, 2] 9 11 [zeroRow 1 3]).1 2 (by decide),
   (C5_init_idempotent [1, 2] 9 11 [zeroRow 1 3]).2.2⟩

theorem insertEvict_length_le_cap {V : Type} (cap : Nat) (es : List (CacheEntry V))
    (k : String) (now : Nat) (v : V) :
    (insertEvict cap es k now v).length ≤ cap := by
  unfold insertEvict
  have hf : (es.filter (fun e => e.key != k)).length ≤ es.length :=
    List.length_filter_le _ _
  dsimp only
  split_ifs with hgt
  · rw [List.length_drop]
    omega
  · simp only [List.length_append, List.length_singleton] at hgt ⊢
    omega

theorem get_or_fetch_length {V : Type} (cap ttl : Nat) (es : List (CacheEntry V))
    (now : Nat) (k : String) (v : V) (h : es.length ≤ cap) :
    ((get_or_fetch cap ttl es now k v).2).length ≤ cap := by
  unfold get_or_fetch
  cases hf : cacheFind es k with
  | none => exact insertEvict_length_le_cap cap es k now v
  | some e =>
    dsimp only
    split_ifs
    · exact h
    · exact insertEvict_length_le_cap cap es k now v

theorem runCalls_length {V : Type} (cap ttl : Nat)
    (calls : List (Nat × String × V)) :
    ∀ es : List (CacheEntry V), es.length ≤ cap →
      (runCalls cap ttl es calls).length ≤ cap := by
  induction calls with
  | nil => exact fun es h => h
  | cons c calls ih =>
    intro es h
    exact ih _ (get_or_fetch_length cap ttl es c.1 c.2.1 c.2.2 h)

/-- C6: over every sequence of `get_or_fetch` calls starting from an
empty cache the live entry count never exceeds the capacity; writing a
new distinct key into a full cache evicts exactly the single oldest
entry by insertion order, keeping everything else; and a fresh read hit
leaves the entry list — including its insertion order — untouched, so
read recency protects nothing. -/
theorem C6_cache_bounded_fifo :
    (∀ (cap ttl : Nat) (calls : List (Nat × String × Nat)),
      (runCalls cap ttl ([] : List (CacheEntry Nat)) calls).length ≤ cap) ∧
    (∀ (cap ttl : Nat) (es : List (CacheEntry Nat)) (now : Nat) (k : String)
        (v : Nat), 0 < cap → es.length = cap → cacheFind es k = none →
      (get_or_fetch cap ttl es now k v).2 = es.drop 1 ++ [⟨k, now, v⟩]) ∧
    (∀ (cap ttl : Nat) (es : List (CacheEntry Nat)) (now : Nat) (k : String)
        (v : Nat) (e : CacheEntry Nat),
      cacheFind es k = some e → now - e.fetched_at < ttl →
      (get_or_fetch cap ttl es now k v).2 = es) := by
  refine ⟨fun cap ttl calls => runCalls_length cap ttl calls [] (by simp), ?_, ?_⟩
  · intro cap ttl es now k v hcap hlen hnone
    have hall : ∀ e ∈ es, (e.key == k) = false := by
      intro e he
      have := List.find?_eq_none.mp hnone e he
      exact Bool.eq_false_iff.mpr this
    have hfil : es.filter (fun e => e.key != k) = es :=
      List.filter_eq_self.mpr fun e he => by simp [bne, hall e he]
    unfold get_or_fetch
    rw [hnone]
    unfold insertEvict
    rw [hfil]
    have hlen2 : (es ++ [(⟨k, now, v⟩ : CacheEntry Nat)]).length = cap + 1 := by
      simp [hlen]
    rw [if_pos (by omega)]
    rw [hlen2]
    have : cap + 1 - cap = 1 := by omega
    rw [this, List.drop_append_of_le_length (by omega)]
  · intro cap ttl es now k v e hfind hfresh
    unfold get_or_fetch
    rw [hfind]
    simp [hfresh]

/-- C6 witness: with capacity 2 and entries a (oldest) then b, fetching
the new key c evicts exactly a; a fresh read of a leaves the cache
unchanged. -/
theorem C6_cache_bounded_fifo_witness :
    (get_or_fetch 2 10 [⟨"a", 0, 1⟩, ⟨"b", 0, 2⟩] 5 "c" 3).2 =
      [⟨"b", 0, 2⟩, ⟨"c", 5, 3⟩] ∧
    (get_or_fetch 2 10 [⟨"a", 0, 1⟩, ⟨"b", 0, 2⟩] 5 "a" 9).2 =
      [⟨"a", 0, 1⟩, ⟨"b", 0, 2⟩] := by
  constructor
  · have h := C6_cache_bounded_fifo.2.1 2 10
      [⟨"a", 0, 1⟩, ⟨"b", 0, 2⟩] 5 "c" 3 (by decide) (by decide) (by decide)
    exact h.trans (by decide)
  · exact C6_cache_bounded_fifo.2.2 2 10
      [⟨"a", 0, 1⟩, ⟨"b", 0, 2⟩] 5 "a" 9 ⟨"a", 0, 1⟩ (by decide) (by decide)

/-- C7: the migrated CHECK constraint admits exactly the four concrete
source names reddit, news, google_trends and x (realizing the four
source kinds), and inserting into `topic_mentions` preserves the
invariant that every stored row's source lies in that set — a row with
any other source is rejected. -/
theorem C7_source_domain :
    (∀ s : String, topic_mentions_source_check s = true ↔
      (s = "reddit" ∨ s = "news" ∨ s = "google_trends" ∨ s = "x")) ∧
    (∀ (topicIds : List Nat) (tbl : List MentionRow) (r : MentionRow)
        (tbl2 : List MentionRow),
      insertMention topicIds tbl r = some tbl2 →
      (∀ row ∈ tbl, topic_mentions_source_check row.source = true) →
      ∀ row ∈ tbl2, topic_mentions_source_check row.source = true) := by
  constructor
  · intro s
    simp only [topic_mentions_source_check, Bool.or_eq_true, beq_iff_eq]
    tauto
  · intro topicIds tbl r tbl2 hins hall row hrow
    unfold insertMention at hins
    split_ifs at hins with hc
    have hc2 : topicIds.contains r.topic_id = true ∧
        topic_mentions_source_check r.source = true := by simpa using hc
    rcases List.mem_append.mp (Option.some.inj hins ▸ hrow) with hin | hin
    · exact hall row hin
    · rw [List.mem_singleton.mp hin]
      exact hc2.2

/-- C7 witness: the migrated source x passes the check on an actually
inserted row. -/
theorem C7_source_domain_witness :
    topic_mentions_source_check xRow.source = true :=
  C7_source_domain.2 [1] [] xRow [xRow] (by decide) (by simp) xRow (by simp)

theorem mem_upsertMomentum (tbl : List MomentumRow) (r : MomentumRow) :
    r ∈ upsertMomentum tbl r := by
  unfold upsertMomentum
  split_ifs with hc
  · rcases List.any_eq_true.mp hc with ⟨row, hrow, hmatch⟩
    exact List.mem_map.mpr ⟨row, hrow, by simp [hmatch]⟩
  · exact List.mem_append_right tbl (List.mem_singleton.mpr rfl)

/-- C8: the stored momentum score is never clamped — the upserted row
carries the score exactly as computed — while both display gauges clamp:
the heat-gauge arc sweep is `min(100, max(0, score)) / 100 × 270` (hence
always between 0 and 270) and the topic-card bar width is
`min(100, score)`; a stored score of 300 still draws a 270-degree sweep
and a 100-percent bar. -/
theorem C8_clamp_display_only :
    (∀ s : ℚ, sweepAngle s = min 100 (max 0 s) / 100 * 270) ∧
    (∀ s : ℚ, barWidth s = min 100 s) ∧
    (∀ (tbl : List MomentumRow) (r : MomentumRow), r ∈ upsertMomentum tbl r) ∧
    sweepAngle 300 = 270 ∧ barWidth 300 = 100 ∧ sweepAngle (-50) = 0 ∧
    (∀ s : ℚ, 0 ≤ sweepAngle s ∧ sweepAngle s ≤ 270) := by
  refine ⟨fun s => rfl, fun s => rfl, mem_upsertMomentum,
    by norm_num [sweepAngle], by norm_num [barWidth],
    by norm_num [sweepAngle], ?_⟩
  intro s
  unfold sweepAngle
  constructor
  · have h0 : (0 : ℚ) ≤ min 100 (max 0 s) :=
      le_min (by norm_num) (le_max_left 0 s)
    positivity
  · have h1 : min 100 (max 0 s) ≤ 100 := min_le_left _ _
    have h2 : min 100 (max 0 s) / 100 ≤ 1 := by
      rw [div_le_one (by norm_num : (0 : ℚ) < 100)]
      exact h1
    nlinarith

theorem addTicker_of_mem (prev : List String) (ticker : String)
    (h : ticker ∈ prev) : addTicker prev ticker = prev := by
  unfold addTicker
  rw [if_pos (List.elem_iff.mpr h)]

/-- C9: adding a ticker that is already on the watchlist returns the
list unchanged, adding twice equals adding once, a single add preserves
freedom from duplicates, and any sequence of adds starting from the
empty watchlist yields a duplicate-free list. -/
theorem C9_addTicker_idempotent :
    (∀ (prev : List String) (ticker : String), ticker ∈ prev →
      addTicker prev ticker = prev) ∧
    (∀ (prev : List String) (ticker : String),
      addTicker (addTicker prev ticker) ticker = addTicker prev ticker) ∧
    (∀ (prev : List String) (ticker : String), prev.Nodup →
      (addTicker prev ticker).Nodup) ∧
    (∀ ts : List String, (ts.foldl addTicker []).Nodup) := by
  have hnodup : ∀ (prev : List String) (ticker : String), prev.Nodup →
      (addTicker prev ticker).Nodup := by
    intro prev ticker h
    unfold addTicker
    split_ifs with hc
    · exact h
    · have hnm : ticker ∉ prev := fun hmem => hc (List.elem_iff.mpr hmem)
      rw [List.nodup_append]
      refine ⟨h, List.nodup_singleton ticker, ?_⟩
      intro a ha hb
      rw [List.mem_singleton] at hb
      exact hnm (hb ▸ ha)
  refine ⟨addTicker_of_mem, ?_, hnodup, ?_⟩
  · intro prev ticker
    apply addTicker_of_mem
    unfold addTicker
    split_ifs with hc
    · exact List.elem_iff.mp hc
    · exact List.mem_append_right prev (List.mem_singleton.mpr rfl)
  · intro ts
    have : ∀ (acc : List String), acc.Nodup → (ts.foldl addTicker acc).Nodup := by
      induction ts with
      | nil => exact fun acc h => h
      | cons a ts ih => exact fun acc h => ih _ (hnodup acc a h)
    exact this [] List.nodup_nil

/-- C9 witness: adding AAPL to a watchlist already holding it changes
nothing, and a duplicate-free watchlist stays duplicate-free. -/
theorem C9_addTicker_idempotent_witness :
    addTicker ["AAPL", "TSLA"] "AAPL" = ["AAPL", "TSLA"] ∧
    (addTicker ["AAPL", "TSLA"] "NVDA").Nodup :=
  ⟨C9_addTicker_idempotent.1 ["AAPL", "TSLA"] "AAPL" (by decide),
   C9_addTicker_idempotent.2.2.1 ["AAPL", "TSLA"] "NVDA" (by decide)⟩

/-- C10: `t` is total with key fallback — whenever the translation table
has an entry for the key, `t` returns that entry's string for the active
locale, and whenever it has none, `t` returns the key itself; it always
returns a string, for every key and locale. -/
theorem C10_translation_total_fallback (locale : Locale) (key : String) :
    (∀ e, lookupTranslation key = some e → t locale key = pickLocale locale e) ∧
    (lookupTranslation key = none → t locale key = key) := by
  constructor
  · intro e he
    unfold t
    rw [he]
  · intro hn
    unfold t
    rw [hn]

/-- C10 witness: a present key returns its Hebrew translation; an absent
key falls back to the key itself. -/
theorem C10_translation_total_fallback_witness :
    t Locale.he "nav.trends" = "טרנדים" ∧
    t Locale.en "missing.key" = "missing.key" := by
  constructor
  · have h := (C10_translation_total_fallback Locale.he "nav.trends").1
      ("nav.trends", "טרנדים", "Trends") (by decide)
    simpa [pickLocale] using h
  · exact (C10_translation_total_fallback Locale.en "missing.key").2 (by decide)

end Trendvest
